import Mathlib

/-!
# Verification of `jobmgr.py` against its specification

A shallow embedding of the job-manager program `src/jobmgr.py`.  The program
keeps two line-oriented ledger files (`jobs.txt` with one shell command per
line, `status.txt` with one status keyword per line), an output directory with
one artifact per job, and a `pids.txt` PID map.  Pure effects of each Python
function on this state are transcribed below as Lean functions; the file-level
locking behaviour of each function is additionally transcribed as a trace of
primitive file events, so that lock-discipline claims can be settled.
-/

namespace JobMgr

/-- Python `str.strip()` whitespace set: space, tab, newline, carriage return,
vertical tab (0x0b), form feed (0x0c). -/
def isPyWhitespace (c : Char) : Bool :=
  c = ' ' || c = '\t' || c = '\n' || c = '\r' || c = Char.ofNat 11 || c = Char.ofNat 12

/-- Python `s.strip()`: remove leading and trailing whitespace characters. -/
def pyStrip (s : String) : String :=
  String.mk (((s.toList.dropWhile isPyWhitespace).reverse.dropWhile isPyWhitespace).reverse)

/-- Python list indexing semantics: `xs[i]` for `i : int` over a list of
length `n` resolves to position `i` when `0 ≤ i < n`, to `n + i` when
`-n ≤ i < 0`, and raises `IndexError` otherwise (`none`). -/
def pyIndex (n : Nat) (i : Int) : Option Nat :=
  if 0 ≤ i ∧ i < (n : Int) then some i.toNat
  else if -(n : Int) ≤ i ∧ i < 0 then some ((n : Int) + i).toNat
  else none

/-- The two index-aligned ledger files: `jobs.txt` (`jobs`, one command string
per line, each entry carrying its trailing newline as stored on disk) and
`status.txt` (`statuses`, one status keyword per line, likewise with
newline). -/
structure Ledger where
  jobs : List String
  statuses : List String
deriving DecidableEq

/-- Both ledger files have the same number of lines. -/
def aligned (l : Ledger) : Prop :=
  l.jobs.length = l.statuses.length

instance (l : Ledger) : Decidable (aligned l) := by
  unfold aligned; infer_instance

/-- The zipped view of the two ledgers: position `i` holds the pair
(command line, status line) of job `i+1`. -/
def pairs (l : Ledger) : List (String × String) :=
  l.jobs.zip l.statuses

/-- `add_job(command)` (src/jobmgr.py lines 34-39): append `command + '\n'`
to `jobs.txt` and `"PENDING\n"` to `status.txt`, both opened in append
mode. -/
def add_job (command : String) (l : Ledger) : Ledger :=
  { jobs := l.jobs ++ [command ++ "\n"],
    statuses := l.statuses ++ ["PENDING\n"] }

/-- `update_status(job_idx, status)` (lines 82-88): read all status lines,
assign `statuses[job_idx] = f"{status}\n"` with Python index semantics, and
rewrite `status.txt`.  When `job_idx` is out of range the assignment raises
`IndexError` before the file is reopened for writing, so the ledger on disk
is left unchanged. -/
def update_status (job_idx : Int) (status : String) (l : Ledger) : Ledger :=
  match pyIndex l.statuses.length job_idx with
  | some k => { l with statuses := l.statuses.set k (status ++ "\n") }
  | none => l

/-- `delete_job(job_id)` (lines 152-162): under the lock, read both ledgers;
if `0 < job_id <= len(jobs)` delete position `job_id - 1` from both lists;
rewrite both files (also when the condition was false, with unchanged
contents).  If the guarded `del statuses[job_id - 1]` were out of range it
would raise before either file is rewritten, leaving both unchanged. -/
def delete_job (job_id : Int) (l : Ledger) : Ledger :=
  if 0 < job_id ∧ job_id ≤ (l.jobs.length : Int) then
    if (job_id - 1).toNat < l.statuses.length then
      { jobs := l.jobs.eraseIdx (job_id - 1).toNat,
        statuses := l.statuses.eraseIdx (job_id - 1).toNat }
    else l
  else l

/-- A status line counts as terminal for `clean_jobs` when it strips to
`COMPLETED` or `ERROR` (line 169-170: `status.strip() in ["COMPLETED", "ERROR"]`). -/
def isTerminal (status : String) : Bool :=
  pyStrip status = "COMPLETED" || pyStrip status = "ERROR"

/-- `clean_jobs()` (lines 164-173): under the lock, read both ledgers; keep
`job for job, status in zip(jobs, statuses)` whose status does not strip to
`COMPLETED`/`ERROR`, and independently keep the non-terminal status lines;
rewrite both files. -/
def clean_jobs (l : Ledger) : Ledger :=
  { jobs := ((l.jobs.zip l.statuses).filter (fun p => !(isTerminal p.2))).map Prod.fst,
    statuses := l.statuses.filter (fun s => !(isTerminal s)) }

/-- `run_jobs_parallel()` (lines 73-80): read both ledgers once, and for
`idx, (job, status) in enumerate(zip(jobs, statuses))` submit `run_job(idx, job)`
to a `ThreadPoolExecutor(max_workers=10)` when `status.strip() == "PENDING"`.
Returned value: the list of submitted indices in submission order, paired with
the ledger, which the function itself never writes. -/
def run_jobs_parallel (l : Ledger) : List Nat × Ledger :=
  ((((l.jobs.zip l.statuses).enum.filter
      (fun p => pyStrip p.2.2 = "PENDING")).map Prod.fst), l)

/-- The worker-pool bound of the scheduler: `ThreadPoolExecutor(max_workers=10)`
on line 74. -/
def MAX_WORKERS : Nat := 10

/-- Outcome of the subprocess started by `run_job`: either the `Popen`ed
process exited with `code` after producing `stdout` and `stderr` strings,
or some step of spawning/capturing raised an exception. -/
inductive ExecOutcome
| exited (code : Int) (stdout stderr : String)
| raised
deriving DecidableEq

/-- The contents `run_job` writes to `output/job_{idx+1}.txt` (lines 56-60):
the captured stdout, then, only when `stderr` is non-empty (Python
truthiness), the divider `"\n--- Errors ---\n"` followed by the stderr.  The
file is opened in `'w'` mode, so this fully overwrites any prior output. -/
def outputContent (stdout stderr : String) : String :=
  stdout ++ (if stderr = "" then "" else "\n--- Errors ---\n" ++ stderr)

/-- The status keyword `run_job` records for a finished job (lines 62-70):
`COMPLETED` on exit code 0, `ERROR` on any non-zero exit code, and `ERROR`
when any exception was raised while spawning or capturing (the `except`
clause). -/
def run_job_status (o : ExecOutcome) : String :=
  match o with
  | .exited code _ _ => if code = 0 then "COMPLETED" else "ERROR"
  | .raised => "ERROR"

/-- `run_job(idx, job)` (lines 48-70), as its effect on the ledger and the
per-job output artifact.  On a normal exit the output artifact for index
`idx` is overwritten with `outputContent stdout stderr` and the status is
updated; when spawning or capturing raised, no artifact is written (the
`with` block is skipped) and the `except` clause sets the status to `ERROR`.
The function catches every exception of the `try` block, so it returns in
every case. -/
def run_job (idx : Nat) (o : ExecOutcome) (l : Ledger) : Ledger × Option String :=
  match o with
  | .exited code stdout stderr =>
      (update_status (idx : Int) (run_job_status (.exited code stdout stderr)) l,
       some (outputContent stdout stderr))
  | .raised => (update_status (idx : Int) "ERROR" l, none)

/-! ## File-event traces

The claims about the lock discipline and the PID map are structural: they are
about which files a function touches, in which mode, and whether the
process-wide `file_lock` is held.  Each Python function's body is transcribed
as the sequence of its primitive file events. -/

/-- A primitive file event of the program: acquiring/releasing the
process-wide `file_lock`, reading a file, rewriting it whole (open mode
`'w'`), or appending to it (open mode `'a'`). -/
inductive FileEvent
| acquire
| release
| readF (name : String)
| writeF (name : String)
| appendF (name : String)
deriving DecidableEq

/-- The file the event touches, if any. -/
def FileEvent.file : FileEvent → Option String
  | .readF n => some n
  | .writeF n => some n
  | .appendF n => some n
  | _ => none

/-- Event trace of `add_job` (lines 34-39): open `jobs.txt` in mode `'a'` and
write, then open `status.txt` in mode `'a'` and write.  No lock is taken. -/
def add_job_events : List FileEvent :=
  [.appendF "jobs.txt", .appendF "status.txt"]

/-- Event trace of `update_status` (lines 82-88): `with file_lock:` read
`status.txt`, then rewrite it in mode `'w'`. -/
def update_status_events : List FileEvent :=
  [.acquire, .readF "status.txt", .writeF "status.txt", .release]

/-- Event trace of `delete_job` (lines 152-162): `with file_lock:` read both
ledgers, then rewrite both in mode `'w'`. -/
def delete_job_events : List FileEvent :=
  [.acquire, .readF "jobs.txt", .readF "status.txt",
   .writeF "jobs.txt", .writeF "status.txt", .release]

/-- Event trace of `clean_jobs` (lines 164-173): `with file_lock:` read both
ledgers, then rewrite both in mode `'w'`. -/
def clean_jobs_events : List FileEvent :=
  [.acquire, .readF "jobs.txt", .readF "status.txt",
   .writeF "jobs.txt", .writeF "status.txt", .release]

/-- Event trace of `run_job idx` on the normal path (lines 48-67): spawning
and `communicate` touch no ledger file; then `with file_lock:` write the
output artifact `output/job_{idx+1}.txt` in mode `'w'`, release, and call
`update_status`.  On the exception path the trace is just
`update_status_events`, a suffix of this trace. -/
def run_job_events (idx : Nat) : List FileEvent :=
  [.acquire, .writeF ("output/job_" ++ toString (idx + 1) ++ ".txt"), .release]
    ++ update_status_events

/-- Event trace of `run_jobs_parallel` (lines 73-80): read both ledgers once;
submissions to the executor perform no file event in this function. -/
def run_jobs_parallel_events : List FileEvent :=
  [.readF "jobs.txt", .readF "status.txt"]

/-- The lock-protected read-modify-write discipline of spec §4.1: first
acquire the exclusive lock, read the full ledger, rewrite the full ledger,
and release last — in particular no append-mode write anywhere in the
body. -/
def lockedRMW (evts : List FileEvent) : Bool :=
  evts.head? = some .acquire &&
  evts.getLast? = some .release &&
  evts.any (fun e => match e with | .readF _ => true | _ => false) &&
  evts.any (fun e => match e with | .writeF _ => true | _ => false) &&
  evts.all (fun e => match e with | .appendF _ => false | _ => true)

/-! ## PID map -/

/-- One parsed line of `pids.txt`: a job index and the subprocess PID,
written as `index:pid`. -/
def parsePidLine (line : String) : Option (Int × Int) :=
  match (pyStrip line).splitOn ":" with
  | [a, b] =>
    match a.toInt?, b.toInt? with
    | some i, some p => some (i, p)
    | _, _ => none
  | _ => none

/-- `pause_job(job_id)` (lines 90-98): read all lines of `pids.txt` and, for
every line parsing as `idx:pid` with `idx == job_id`, send `SIGSTOP` to
`pid` and set status `job_id - 1` to `PAUSED`.  Result: the list of PIDs
signalled.  (A malformed line would raise in `map(int, ...)`; no line of the
claims is malformed.) -/
def pause_job_signals (pidLines : List String) (job_id : Int) : List Int :=
  pidLines.foldl (fun acc line =>
    match parsePidLine line with
    | some (i, p) => if i = job_id then acc ++ [p] else acc
    | none => acc) []

/-! ## Sequences of ledger mutations -/

/-- A ledger-mutating operation of the command surface: `add` (`add_job`),
`setStatus` (`update_status`), `del` (`delete_job`) and `clean`
(`clean_jobs`). -/
inductive Op
| add (command : String)
| setStatus (idx : Int) (status : String)
| del (job_id : Int)
| clean
deriving DecidableEq

/-- The effect of one operation on the two ledger files. -/
def applyOp (op : Op) (l : Ledger) : Ledger :=
  match op with
  | .add command => add_job command l
  | .setStatus idx status => update_status idx status l
  | .del job_id => delete_job job_id l
  | .clean => clean_jobs l

/-- The effect of a sequence of operations, applied left to right. -/
def applySeq (ops : List Op) (l : Ledger) : Ledger :=
  ops.foldl (fun acc op => applyOp op acc) l

/-- The submission loop of `run_jobs_parallel`, generalized over the first
index handed out by `enumerate`: the indices, counted from `n`, of the
zipped entries whose status line strips to `PENDING`, in loop order.
`(run_jobs_parallel l).1 = submittedFrom 0 (pairs l)` definitionally. -/
def submittedFrom (n : Nat) (xs : List (String × String)) : List Nat :=
  ((List.enumFrom n xs).filter (fun p => pyStrip p.2.2 = "PENDING")).map Prod.fst

/-! ## Helper lemmas -/

theorem filter_zip_snd (p : String → Bool) :
    ∀ (js ss : List String), js.length = ss.length →
      ((js.zip ss).filter (fun q => p q.2)).map Prod.snd = ss.filter p := by
  intro js
  induction js with
  | nil =>
    intro ss h
    cases ss with
    | nil => rfl
    | cons s ss => simp at h
  | cons j js ih =>
    intro ss h
    cases ss with
    | nil => simp at h
    | cons s ss =>
      simp only [List.length_cons, Nat.add_right_cancel_iff] at h
      simp only [List.zip_cons_cons, List.filter_cons]
      by_cases hp : p s
      · simp [hp, ih ss h]
      · simp [hp, ih ss h]

theorem zip_eraseIdx :
    ∀ (js ss : List String) (k : Nat), js.length = ss.length →
      (js.eraseIdx k).zip (ss.eraseIdx k) = (js.zip ss).eraseIdx k := by
  intro js
  induction js with
  | nil =>
    intro ss k h
    cases ss with
    | nil => simp [List.eraseIdx]
    | cons s ss => simp at h
  | cons j js ih =>
    intro ss k h
    cases ss with
    | nil => simp at h
    | cons s ss =>
      simp only [List.length_cons, Nat.add_right_cancel_iff] at h
      cases k with
      | zero => simp [List.eraseIdx, List.zip]
      | succ k =>
        simp only [List.eraseIdx, List.zip_cons_cons]
        exact congrArg _ (ih ss k h)

/-- Every single operation preserves the equal-length invariant. -/
theorem aligned_applyOp (op : Op) (l : Ledger) (h : aligned l) :
    aligned (applyOp op l) := by
  cases op with
  | add command =>
    simp [applyOp, add_job, aligned] at *
    omega
  | setStatus idx status =>
    simp only [applyOp, update_status]
    cases hk : pyIndex l.statuses.length idx with
    | none => exact h
    | some k => simpa [aligned, List.length_set] using h
  | del job_id =>
    show aligned (delete_job job_id l)
    unfold delete_job
    split
    · split
      · rename_i h1 h2
        have hj : (job_id - 1).toNat < l.jobs.length := by
          unfold aligned at h; omega
        simp only [aligned, List.length_eraseIdx, hj, h2, if_pos]
        unfold aligned at h; omega
      · exact h
    · exact h
  | clean =>
    simp only [applyOp, clean_jobs, aligned, List.length_map]
    have := filter_zip_snd (fun s => !(isTerminal s)) l.jobs l.statuses h
    calc ((l.jobs.zip l.statuses).filter fun q => !(isTerminal q.2)).length
        = (((l.jobs.zip l.statuses).filter fun q => !(isTerminal q.2)).map Prod.snd).length := by
          simp
      _ = (l.statuses.filter fun s => !(isTerminal s)).length := by rw [this]

/-- Every sequence of operations preserves the equal-length invariant. -/
theorem aligned_applySeq (ops : List Op) (l : Ledger) (h : aligned l) :
    aligned (applySeq ops l) := by
  induction ops generalizing l with
  | nil => exact h
  | cons op ops ih => exact ih (applyOp op l) (aligned_applyOp op l h)

/-- On the zipped view, `add_job` appends exactly the pair
(command line, `"PENDING\n"`). -/
theorem pairs_add_job (command : String) (l : Ledger) (h : aligned l) :
    pairs (add_job command l) = pairs l ++ [(command ++ "\n", "PENDING\n")] := by
  unfold pairs add_job
  simpa using List.zip_append h

/-- On the zipped view, `clean_jobs` is exactly the filter keeping the
non-terminal pairs, in order. -/
theorem pairs_clean_jobs (l : Ledger) (h : aligned l) :
    pairs (clean_jobs l) = (pairs l).filter (fun q => !(isTerminal q.2)) := by
  unfold pairs clean_jobs
  have hsnd := filter_zip_snd (fun s => !(isTerminal s)) l.jobs l.statuses h
  calc (((l.jobs.zip l.statuses).filter (fun q => !(isTerminal q.2))).map Prod.fst).zip
        (l.statuses.filter (fun s => !(isTerminal s)))
      = (((l.jobs.zip l.statuses).filter (fun q => !(isTerminal q.2))).map Prod.fst).zip
        (((l.jobs.zip l.statuses).filter (fun q => !(isTerminal q.2))).map Prod.snd) := by
        rw [hsnd]
    _ = (l.jobs.zip l.statuses).filter (fun q => !(isTerminal q.2)) :=
        (List.zip_of_prod rfl rfl).symm

/-- On the zipped view, an in-range `delete_job` erases exactly position
`job_id - 1`, and an out-of-range one is the identity. -/
theorem pairs_delete_job (job_id : Int) (l : Ledger) (h : aligned l) :
    pairs (delete_job job_id l) =
      if 0 < job_id ∧ job_id ≤ (l.jobs.length : Int) then
        (pairs l).eraseIdx (job_id - 1).toNat
      else pairs l := by
  unfold delete_job
  split
  · rename_i h1
    have h2 : (job_id - 1).toNat < l.statuses.length := by
      unfold aligned at h; omega
    rw [if_pos h2]
    exact zip_eraseIdx l.jobs l.statuses (job_id - 1).toNat h
  · rfl

/-- Index `i` is submitted by the scan loop iff the entry at position
`i - n` exists and its status line strips to `PENDING`. -/
theorem mem_submittedFrom (n i : Nat) (xs : List (String × String)) :
    i ∈ submittedFrom n xs ↔
      n ≤ i ∧ ∃ pr, xs[i - n]? = some pr ∧ pyStrip pr.2 = "PENDING" := by
  unfold submittedFrom
  simp only [List.mem_map, List.mem_filter]
  constructor
  · rintro ⟨⟨j, pr⟩, ⟨hmem, hp⟩, rfl⟩
    have hc := List.mk_mem_enumFrom_iff_le_and_getElem?_sub.mp hmem
    exact ⟨hc.1, pr, hc.2, by simpa using hp⟩
  · rintro ⟨hni, pr, hget, hp⟩
    exact ⟨(i, pr), ⟨List.mk_mem_enumFrom_iff_le_and_getElem?_sub.mpr ⟨hni, hget⟩,
      by simpa using hp⟩, rfl⟩

theorem fst_lt_of_mem_enumFrom {n : Nat} {xs : List (String × String)}
    {q : Nat × (String × String)} (hq : q ∈ List.enumFrom n xs) : n ≤ q.1 := by
  have hq2 : (q.1, q.2) ∈ List.enumFrom n xs := by simpa using hq
  exact (List.mk_mem_enumFrom_iff_le_and_getElem?_sub.mp hq2).1

theorem pairwise_enumFrom (xs : List (String × String)) :
    ∀ n : Nat, (List.enumFrom n xs).Pairwise (fun a b => a.1 < b.1) := by
  induction xs with
  | nil => intro n; exact List.Pairwise.nil
  | cons x xs ih =>
    intro n
    refine List.Pairwise.cons ?_ (ih (n + 1))
    intro b hb
    have hle := fst_lt_of_mem_enumFrom hb
    omega

/-- The scan submits indices in strictly ascending order. -/
theorem pairwise_submittedFrom (n : Nat) (xs : List (String × String)) :
    (submittedFrom n xs).Pairwise (· < ·) := by
  unfold submittedFrom
  rw [List.pairwise_map]
  exact List.Pairwise.filter _ (pairwise_enumFrom xs n)

/-- A `Nat`-valued index below the list length resolves, under Python index
semantics, to itself. -/
theorem pyIndex_natCast (n i : Nat) (h : i < n) : pyIndex n (i : Int) = some i := by
  unfold pyIndex
  rw [if_pos ⟨Int.natCast_nonneg i, by exact_mod_cast h⟩]
  simp

/-- The output artifact of job `idx + 1` is never the PID map file. -/
theorem output_file_ne_pids (idx : Nat) :
    ("output/job_" ++ toString (idx + 1) ++ ".txt") ≠ "pids.txt" := by
  intro h
  have hd := congrArg String.data h
  simp [String.data_append] at hd

/-- The status keyword recorded by `run_job` never strips back to `PENDING`:
it is `COMPLETED` or `ERROR` in every case. -/
theorem run_job_status_not_pending (o : ExecOutcome) :
    pyStrip (run_job_status o ++ "\n") ≠ "PENDING" := by
  cases o with
  | exited code stdout stderr =>
    by_cases hc : code = 0
    · subst hc
      have he0 : run_job_status (.exited 0 stdout stderr) = "COMPLETED" := by
        simp [run_job_status]
      rw [he0]; decide
    · have he : run_job_status (.exited code stdout stderr) = "ERROR" := by
        simp [run_job_status, hc]
      rw [he]; decide
  | raised => decide

theorem run_jobs_parallel_fst (l : Ledger) :
    (run_jobs_parallel l).1 = submittedFrom 0 (pairs l) := rfl

theorem zip_getElem?_some_snd {a b : List String} {i : Nat} {pr : String × String}
    (hg : (a.zip b)[i]? = some pr) : b[i]? = some pr.2 := by
  obtain ⟨x, y⟩ := pr
  rw [List.zip_eq_zipWith, List.getElem?_zipWith] at hg
  cases ha : a[i]? <;> cases hb : b[i]? <;> simp [ha, hb] at hg
  simp [hb, hg.2]

/-- For equal-length lists, the second projection of the zipped lookup is the
lookup in the second list. -/
theorem zip_getElem?_snd {a b : List String} (h : a.length = b.length) (i : Nat) :
    ((a.zip b)[i]?).map Prod.snd = b[i]? := by
  rw [List.zip_eq_zipWith, List.getElem?_zipWith]
  cases ha : a[i]? with
  | none =>
    have hlen : a.length ≤ i := List.getElem?_eq_none_iff.mp ha
    have hb : b[i]? = none := List.getElem?_eq_none_iff.mpr (h ▸ hlen)
    simp [hb]
  | some x =>
    cases hb : b[i]? with
    | none =>
      have hlen : b.length ≤ i := List.getElem?_eq_none_iff.mp hb
      have ha2 : a[i]? = none := List.getElem?_eq_none_iff.mpr (h ▸ hlen)
      simp [ha2] at ha
    | some y => simp

/-- The ledger after `run_job`: jobs untouched, the status line of `idx`
replaced by the keyword determined by the outcome. -/
theorem run_job_ledger (idx : Nat) (o : ExecOutcome) (l : Ledger)
    (h : idx < l.statuses.length) :
    (run_job idx o l).1 =
      { jobs := l.jobs, statuses := l.statuses.set idx (run_job_status o ++ "\n") } := by
  cases o with
  | exited code stdout stderr =>
    show update_status (idx : Int) (run_job_status (.exited code stdout stderr)) l = _
    unfold update_status
    rw [pyIndex_natCast _ _ h]
  | raised =>
    show update_status (idx : Int) "ERROR" l = _
    unfold update_status
    rw [pyIndex_natCast _ _ h]
    simp [run_job_status]

/-! ## Claims -/

/-- C1: starting from two equal-length, index-aligned ledgers, every sequence
of `add`, `setStatus`, `delete` and `clean` operations keeps the job ledger
and the status ledger equal in length and index-aligned, and every `add`
appends exactly one entry to each ledger, the new pair being the command line
together with status `PENDING`. -/
theorem C1_ledger_alignment :
    (∀ (ops : List Op) (l : Ledger), aligned l → aligned (applySeq ops l)) ∧
    (∀ (command : String) (l : Ledger),
      applyOp (Op.add command) l =
        { jobs := l.jobs ++ [command ++ "\n"],
          statuses := l.statuses ++ ["PENDING\n"] }) ∧
    (∀ (command : String) (l : Ledger), aligned l →
      pairs (applyOp (Op.add command) l) = pairs l ++ [(command ++ "\n", "PENDING\n")]) :=
  ⟨aligned_applySeq, fun _ _ => rfl, fun command l h => pairs_add_job command l h⟩

/-- Witness for C1: a concrete mixed sequence of operations from the empty
(aligned) ledger ends aligned. -/
theorem C1_ledger_alignment_witness :
    aligned (applySeq
      [Op.add "echo hi", Op.add "ls", Op.setStatus 0 "COMPLETED",
       Op.clean, Op.del 1] ⟨[], []⟩) :=
  C1_ledger_alignment.1 _ ⟨[], []⟩ (by decide)

/-- C2 counterexample: `add_job` (lines 34-39) performs its appends to both
ledgers in append mode without ever acquiring the process-wide lock, so the
claim that every mutating ledger operation — including add's append — follows
the acquire-lock/read-all/write-all/release discipline is false on the add
operation. -/
theorem C2_add_unlocked_counterexample : lockedRMW add_job_events = false := by
  decide

/-- C2 (amended): `setStatus` (`update_status`), `delete` (`delete_job`) and
`clean` (`clean_jobs`) each run as acquire the process-wide lock, read the
full ledger, apply the change, rewrite the full ledger, release the lock;
`add` instead performs only append-mode writes and in particular never
acquires the lock, so its two appends are not atomic with respect to the
other ledger mutators. -/
theorem C2_lock_discipline_amended :
    lockedRMW update_status_events = true ∧
    lockedRMW delete_job_events = true ∧
    lockedRMW clean_jobs_events = true ∧
    add_job_events.all
      (fun e => match e with | .appendF _ => true | _ => false) = true ∧
    lockedRMW add_job_events = false := by
  decide

/-- C3: the claim says `execute` records an `index:pid` line in the PID map
when the subprocess is spawned, so that pause/resume can signal it.  The code
never does: no file event of `run_job` (nor of the scan or any ledger
mutator) touches `pids.txt` — the only writer in the whole source is
`initialize`, which creates it empty — hence `pause_job` over the PID map
contents always parses an empty list of lines and signals nothing. -/
theorem C3_pid_map_never_written :
    (∀ (idx : Nat), ∀ e ∈ run_job_events idx, e.file ≠ some "pids.txt") ∧
    (∀ e ∈ add_job_events, e.file ≠ some "pids.txt") ∧
    (∀ e ∈ run_jobs_parallel_events, e.file ≠ some "pids.txt") ∧
    (∀ job_id : Int, pause_job_signals [] job_id = []) := by
  refine ⟨?_, ?_, ?_, fun _ => rfl⟩
  · intro idx e he
    simp only [run_job_events, update_status_events, List.cons_append,
      List.nil_append, List.mem_cons, List.not_mem_nil, or_false] at he
    rcases he with rfl | rfl | rfl | rfl | rfl | rfl | rfl
    · decide
    · intro h
      exact output_file_ne_pids idx (by simpa [FileEvent.file] using h)
    · decide
    · decide
    · decide
    · decide
    · decide
  · intro e he
    rcases (by simpa [add_job_events] using he : _ ∨ _) with rfl | rfl <;> decide
  · intro e he
    rcases (by simpa [run_jobs_parallel_events] using he : _ ∨ _) with rfl | rfl <;>
      decide

/-- Witness for C3: the first event of `run_job 0` does not touch the PID
map. -/
theorem C3_pid_map_never_written_witness :
    FileEvent.acquire ∈ run_job_events 0 ∧
    (FileEvent.acquire).file ≠ some "pids.txt" :=
  ⟨by decide, C3_pid_map_never_written.1 0 FileEvent.acquire (by decide)⟩

/-- C4 counterexample: with one job whose status line is `PENDING`, a scan
submits index 0, the scan itself leaves the ledger (and so the status)
unchanged, and a second scan run before the job finishes submits index 0
again — refuting the claim that a job picked up by one scan is no longer
`PENDING` at the next scan and hence never dispatched twice. -/
theorem C4_redispatch_counterexample :
    (run_jobs_parallel ⟨["sleep 100\n"], ["PENDING\n"]⟩).1 = [0] ∧
    (run_jobs_parallel ⟨["sleep 100\n"], ["PENDING\n"]⟩).2 =
      ⟨["sleep 100\n"], ["PENDING\n"]⟩ ∧
    (run_jobs_parallel
      ((run_jobs_parallel ⟨["sleep 100\n"], ["PENDING\n"]⟩).2)).1 = [0] := by
  refine ⟨by decide, rfl, by decide⟩

/-- C4 (amended): dispatching changes no status — a dispatched job stays
`PENDING` until its `run_job` finishes, so a later scan that runs before the
job finishes submits the same index again.  What does hold: within a single
scan each index is submitted at most once (the submission list is strictly
ascending), and once `run_job` has completed for an index — recording
`COMPLETED` or `ERROR` — a later scan skips that index. -/
theorem C4_dispatch_amended (l : Ledger) (idx : Nat) (o : ExecOutcome)
    (h : idx < l.statuses.length) :
    (run_jobs_parallel l).2 = l ∧
    (run_jobs_parallel l).1.Pairwise (· < ·) ∧
    idx ∉ (run_jobs_parallel (run_job idx o l).1).1 := by
  refine ⟨rfl, pairwise_submittedFrom 0 (pairs l), ?_⟩
  intro hmem
  rw [run_jobs_parallel_fst, run_job_ledger idx o l h, mem_submittedFrom] at hmem
  obtain ⟨-, pr, hget, hp⟩ := hmem
  simp only [Nat.sub_zero, pairs] at hget
  have hsnd := zip_getElem?_some_snd hget
  have hset : (l.statuses.set idx (run_job_status o ++ "\n"))[idx]? =
      some (run_job_status o ++ "\n") := List.getElem?_set_self h
  rw [hset] at hsnd
  have hpr2 : pr.2 = run_job_status o ++ "\n" := (Option.some.inj hsnd).symm
  rw [hpr2] at hp
  exact run_job_status_not_pending o hp

/-- Witness for C4 (amended): after the single job of a one-job ledger has
completed, the next scan submits nothing for it. -/
theorem C4_dispatch_amended_witness :
    0 ∉ (run_jobs_parallel
      (run_job 0 (ExecOutcome.exited 0 "out\n" "") ⟨["c\n"], ["PENDING\n"]⟩).1).1 :=
  (C4_dispatch_amended ⟨["c\n"], ["PENDING\n"]⟩ 0 (ExecOutcome.exited 0 "out\n" "")
    (by decide)).2.2

/-- C5: for every executed job, exit code 0 records status `COMPLETED`,
any non-zero exit code records `ERROR`, and any exception while spawning or
capturing records `ERROR` (the `except` clause absorbs it — `run_job` is a
total function of the outcome, so no exception reaches the caller); in every
case the recorded keyword lands on the job's own status line. -/
theorem C5_exit_status (idx : Nat) (o : ExecOutcome) (l : Ledger)
    (h : idx < l.statuses.length) :
    (run_job idx o l).1.statuses[idx]? = some (run_job_status o ++ "\n") ∧
    (∀ stdout stderr, run_job_status (.exited 0 stdout stderr) = "COMPLETED") ∧
    (∀ code stdout stderr, code ≠ 0 →
      run_job_status (.exited code stdout stderr) = "ERROR") ∧
    run_job_status .raised = "ERROR" := by
  refine ⟨?_, fun _ _ => rfl,
    fun code _ _ hc => by simp [run_job_status, hc], rfl⟩
  rw [run_job_ledger idx o l h]
  exact List.getElem?_set_self h

/-- Witness for C5: a job failing with exit code 3 ends with `ERROR` on its
status line. -/
theorem C5_exit_status_witness :
    (run_job 0 (ExecOutcome.exited 3 "" "oops\n")
      ⟨["c\n"], ["PENDING\n"]⟩).1.statuses[0]? =
      some (run_job_status (ExecOutcome.exited 3 "" "oops\n") ++ "\n") :=
  (C5_exit_status 0 (ExecOutcome.exited 3 "" "oops\n") ⟨["c\n"], ["PENDING\n"]⟩
    (by decide)).1

/-- C6: the output artifact of an executed job is overwritten with the
captured stdout alone when the captured stderr is empty, and with the stdout
followed by the `--- Errors ---` divider and the stderr when it is
non-empty (for any exit code, in particular a non-zero one); when spawning
raised, no artifact is written. -/
theorem C6_output_artifact (idx : Nat) (code : Int) (stdout stderr : String)
    (l : Ledger) :
    (stderr = "" →
      (run_job idx (.exited code stdout stderr) l).2 = some stdout) ∧
    (stderr ≠ "" →
      (run_job idx (.exited code stdout stderr) l).2 =
        some (stdout ++ "\n--- Errors ---\n" ++ stderr)) ∧
    (run_job idx .raised l).2 = none := by
  refine ⟨?_, ?_, rfl⟩
  · intro he
    simp [run_job, outputContent, he]
  · intro he
    simp [run_job, outputContent, he, String.append_assoc]

/-- Witness for C6: both branches at concrete outputs — a failing job with
stderr gets stdout, divider, stderr; a clean job gets exactly its stdout. -/
theorem C6_output_artifact_witness :
    (run_job 0 (ExecOutcome.exited 2 "out\n" "boom\n")
      ⟨["c\n"], ["PENDING\n"]⟩).2 =
      some ("out\n" ++ "\n--- Errors ---\n" ++ "boom\n") ∧
    (run_job 0 (ExecOutcome.exited 0 "out\n" "")
      ⟨["c\n"], ["PENDING\n"]⟩).2 = some "out\n" :=
  ⟨(C6_output_artifact 0 2 "out\n" "boom\n" ⟨["c\n"], ["PENDING\n"]⟩).2.1
      (by decide),
   (C6_output_artifact 0 0 "out\n" "" ⟨["c\n"], ["PENDING\n"]⟩).1 rfl⟩

/-- C7 counterexample: a job can exit with code 0 while having written to
stderr; its status becomes `COMPLETED` but the output artifact is the stdout
followed by the divider and the stderr — not "exactly the captured stdout
(nothing else)" as the claim states. -/
theorem C7_stdout_only_counterexample :
    run_job_status (ExecOutcome.exited 0 "hi\n" "warning\n") = "COMPLETED" ∧
    (run_job 0 (ExecOutcome.exited 0 "hi\n" "warning\n")
      ⟨["c\n"], ["PENDING\n"]⟩).2 ≠ some "hi\n" := by
  refine ⟨rfl, by decide⟩

/-- C7 (amended): for every job whose command exits with code 0 the status
becomes `COMPLETED`, and the output artifact contains exactly the captured
stdout provided the captured stderr is empty (otherwise the divider and the
stderr follow it). -/
theorem C7_completed_amended (idx : Nat) (stdout stderr : String) (l : Ledger)
    (h : idx < l.statuses.length) :
    (run_job idx (.exited 0 stdout stderr) l).1.statuses[idx]? =
      some "COMPLETED\n" ∧
    (stderr = "" →
      (run_job idx (.exited 0 stdout stderr) l).2 = some stdout) := by
  constructor
  · rw [run_job_ledger idx _ l h]
    exact List.getElem?_set_self h
  · intro he
    simp [run_job, outputContent, he]

/-- Witness for C7 (amended): a clean exit-0 job at index 0. -/
theorem C7_completed_amended_witness :
    (run_job 0 (ExecOutcome.exited 0 "hi\n" "")
      ⟨["c\n"], ["PENDING\n"]⟩).1.statuses[0]? = some "COMPLETED\n" ∧
    (run_job 0 (ExecOutcome.exited 0 "hi\n" "")
      ⟨["c\n"], ["PENDING\n"]⟩).2 = some "hi\n" := by
  have hc := C7_completed_amended 0 "hi\n" "" ⟨["c\n"], ["PENDING\n"]⟩ (by decide)
  exact ⟨hc.1, hc.2 rfl⟩

/-- C8: `run_jobs_parallel` takes one snapshot of the ledgers (the scan
itself leaves them unchanged and returns without applying any job effect),
submits exactly the indices whose status line strips to `PENDING` — each such
index once, in strictly ascending order — to a pool bounded at
`max_workers = 10`. -/
theorem C8_dispatch_pending (l : Ledger) (h : aligned l) :
    (run_jobs_parallel l).2 = l ∧
    MAX_WORKERS = 10 ∧
    (run_jobs_parallel l).1.Pairwise (· < ·) ∧
    (run_jobs_parallel l).1.Nodup ∧
    (∀ i : Nat, i ∈ (run_jobs_parallel l).1 ↔
      ∃ s, l.statuses[i]? = some s ∧ pyStrip s = "PENDING") := by
  have hpw : (run_jobs_parallel l).1.Pairwise (· < ·) :=
    pairwise_submittedFrom 0 (pairs l)
  refine ⟨rfl, rfl, hpw, hpw.imp (fun hlt => Nat.ne_of_lt hlt), ?_⟩
  intro i
  rw [run_jobs_parallel_fst, mem_submittedFrom]
  have hmap : ((pairs l)[i]?).map Prod.snd = l.statuses[i]? :=
    zip_getElem?_snd h i
  simp only [Nat.zero_le, Nat.sub_zero, true_and]
  constructor
  · rintro ⟨pr, hget, hp⟩
    exact ⟨pr.2, by rw [← hmap, hget]; rfl, hp⟩
  · rintro ⟨s, hget, hp⟩
    rw [← hmap] at hget
    obtain ⟨pr, hzip, hpr⟩ := Option.map_eq_some'.mp hget
    exact ⟨pr, hzip, hpr ▸ hp⟩

/-- Witness for C8: on a two-job ledger with one `PENDING` and one
`COMPLETED` entry, exactly index 1 is submitted. -/
theorem C8_dispatch_pending_witness :
    (1 ∈ (run_jobs_parallel ⟨["a\n", "b\n"], ["COMPLETED\n", "PENDING\n"]⟩).1 ↔
      ∃ s, (["COMPLETED\n", "PENDING\n"] : List String)[1]? = some s ∧
        pyStrip s = "PENDING") ∧
    (run_jobs_parallel ⟨["a\n", "b\n"], ["COMPLETED\n", "PENDING\n"]⟩).1 = [1] :=
  ⟨(C8_dispatch_pending ⟨["a\n", "b\n"], ["COMPLETED\n", "PENDING\n"]⟩
      (by decide)).2.2.2.2 1, by decide⟩

/-- C9: on equal-length ledgers, `clean_jobs` removes exactly the entries
whose status strips to `COMPLETED` or `ERROR` from both files: the zipped
view of the result is the filter of the zipped input keeping the
non-terminal pairs — so the surviving entries keep their relative order and
their command-to-status pairing (the result is a sublist of the input). -/
theorem C9_clean_terminal (l : Ledger) (h : aligned l) :
    pairs (clean_jobs l) = (pairs l).filter (fun q => !(isTerminal q.2)) ∧
    (clean_jobs l).statuses = l.statuses.filter (fun s => !(isTerminal s)) ∧
    (pairs (clean_jobs l)).Sublist (pairs l) ∧
    (∀ s, isTerminal s = true ↔ (pyStrip s = "COMPLETED" ∨ pyStrip s = "ERROR")) := by
  refine ⟨pairs_clean_jobs l h, rfl, ?_, ?_⟩
  · rw [pairs_clean_jobs l h]
    exact List.filter_sublist _
  · intro s
    simp [isTerminal]

/-- Witness for C9: the spec's own example — `[A:COMPLETED, B:PENDING,
C:ERROR, D:PAUSED]` cleans to `[B:PENDING, D:PAUSED]`. -/
theorem C9_clean_terminal_witness :
    pairs (clean_jobs ⟨["A\n", "B\n", "C\n", "D\n"],
        ["COMPLETED\n", "PENDING\n", "ERROR\n", "PAUSED\n"]⟩) =
      (pairs ⟨["A\n", "B\n", "C\n", "D\n"],
        ["COMPLETED\n", "PENDING\n", "ERROR\n", "PAUSED\n"]⟩).filter
        (fun q => !(isTerminal q.2)) ∧
    clean_jobs ⟨["A\n", "B\n", "C\n", "D\n"],
        ["COMPLETED\n", "PENDING\n", "ERROR\n", "PAUSED\n"]⟩ =
      ⟨["B\n", "D\n"], ["PENDING\n", "PAUSED\n"]⟩ :=
  ⟨(C9_clean_terminal ⟨["A\n", "B\n", "C\n", "D\n"],
      ["COMPLETED\n", "PENDING\n", "ERROR\n", "PAUSED\n"]⟩ (by decide)).1,
   by decide⟩

/-- C10: `delete_job` with an out-of-range id — `job_id ≤ 0` or
`job_id > len(jobs)` — rewrites both ledger files with exactly their prior
contents (the embedded effect is the identity; the function raises nothing
and prints nothing), and only an in-range `1 ≤ job_id ≤ len(jobs)` removes
the entry at position `job_id` from both ledgers. -/
theorem C10_delete_range (job_id : Int) (l : Ledger) (h : aligned l) :
    (¬(0 < job_id ∧ job_id ≤ (l.jobs.length : Int)) → delete_job job_id l = l) ∧
    ((0 < job_id ∧ job_id ≤ (l.jobs.length : Int)) →
      delete_job job_id l =
        { jobs := l.jobs.eraseIdx (job_id - 1).toNat,
          statuses := l.statuses.eraseIdx (job_id - 1).toNat }) := by
  constructor
  · intro hrange
    unfold delete_job
    rw [if_neg hrange]
  · intro hrange
    unfold delete_job
    rw [if_pos hrange, if_pos (by unfold aligned at h; omega)]

/-- Witness for C10: on a one-job ledger, `delete_job 5` (out of range)
changes nothing and `delete_job 1` empties both files. -/
theorem C10_delete_range_witness :
    delete_job 5 ⟨["a\n"], ["PENDING\n"]⟩ = ⟨["a\n"], ["PENDING\n"]⟩ ∧
    delete_job 1 ⟨["a\n"], ["PENDING\n"]⟩ =
      ⟨(["a\n"] : List String).eraseIdx 0,
       (["PENDING\n"] : List String).eraseIdx 0⟩ :=
  ⟨(C10_delete_range 5 ⟨["a\n"], ["PENDING\n"]⟩ (by decide)).1 (by decide),
   (C10_delete_range 1 ⟨["a\n"], ["PENDING\n"]⟩ (by decide)).2 (by decide)⟩

end JobMgr
